import Mathlib

/-!
Shallow embedding of the blogicum blog application
(src/blogicum/blog/views.py, forms.py, urls.py).

Entities (Post, Comment, Category, User) are records; the database is a
record of lists.  Each Django class-based view is translated into a pure
function from the database, the current time and the requesting viewer to
a response (and, for mutating handlers, a new database).  Machine details
(templates, HTTP) are outside the claims and are not modelled; timestamps
are natural numbers.
-/

namespace Blogicum

/-- A blog category (blog.models.Category): publication flag and slug.
The model file is not part of the excerpt; the fields used by views.py
are `id`, `slug` and `is_published`. -/
structure Category where
  id : Nat
  slug : String
  is_published : Bool
deriving DecidableEq, Repr

/-- A user account: primary key and username (the fields views.py uses). -/
structure User where
  id : Nat
  username : String
deriving DecidableEq, Repr

/-- A blog post (blog.models.Post).  `author` and `category` are foreign
keys by id; `category` is an optional reference.  `pub_date` and
`created_at` are timestamps modelled as naturals. -/
structure Post where
  id : Nat
  author : Nat
  category : Option Nat
  location : Option Nat
  title : String
  text : String
  pub_date : Nat
  is_published : Bool
  created_at : Nat
deriving DecidableEq, Repr

/-- A comment (blog.models.Comment): belongs to one post, has an author. -/
structure Comment where
  id : Nat
  post : Nat
  author : Nat
  text : String
deriving DecidableEq, Repr

/-- The database state seen by the handlers. -/
structure Db where
  posts : List Post
  comments : List Comment
  categories : List Category
  users : List User
deriving DecidableEq, Repr

/-- The requesting user: `none` is an anonymous session
(Django's AnonymousUser). -/
abbrev Viewer := Option User

/-- `request.user == u` for a user referenced by id `uid`:
an anonymous viewer equals no user. -/
def viewerIs (v : Viewer) (uid : Nat) : Bool :=
  match v with
  | none => false
  | some u => u.id == uid

/-- The ORM lookup `category__is_published=True` on a post: the join
through the nullable `category` foreign key; a null reference or a
dangling id produces no row, hence `false`. -/
def catPublished (cats : List Category) (p : Post) : Bool :=
  match p.category with
  | none => false
  | some cid =>
    match cats.find? (fun c => c.id == cid) with
    | none => false
    | some c => c.is_published

/-- The ordering relation of `ordering = [-pub_date]`: descending by
`pub_date`. -/
def pubGE (a b : Post) : Prop := b.pub_date ≤ a.pub_date

instance : DecidableRel pubGE := fun a b => Nat.decLe b.pub_date a.pub_date

instance : IsTotal Post pubGE := ⟨fun a b => Nat.le_total b.pub_date a.pub_date⟩

instance : IsTrans Post pubGE := ⟨fun _ _ _ h₁ h₂ => Nat.le_trans h₂ h₁⟩

/-- `super().get_queryset()` of the three ListViews: all posts ordered by
`pub_date` descending. -/
def orderedPosts (posts : List Post) : List Post :=
  List.insertionSort pubGE posts

/-- `paginate_by = 10`, shared by the three ListViews. -/
def paginate_by : Nat := 10

/-- The contents of page `k` (1-indexed) of a paginated queryset
(django Paginator semantics: consecutive slices of `paginate_by`). -/
def getPage (k : Nat) (l : List Post) : List Post :=
  (l.drop (paginate_by * (k - 1))).take paginate_by

/-- Number of comments referencing a post: `annotate(comment_count=Count('comment'))`.
The annotation adds a computed column and changes neither the rows of the
queryset nor their order, so querysets below stay `List Post` and the
count is this separate function. -/
def comment_count (db : Db) (p : Post) : Nat :=
  (db.comments.filter (fun c => c.post == p.id)).length

/-- PostListView.get_queryset: the ordered posts filtered by
`category__is_published=True, is_published=True, pub_date__lte=now`. -/
def postListQueryset (db : Db) (now : Nat) : List Post :=
  (orderedPosts db.posts).filter
    (fun p => catPublished db.categories p && p.is_published
      && decide (p.pub_date ≤ now))

/-- PostCategoriesView.category: `get_object_or_404(Category,
slug=category_slug, is_published=True)`. -/
def resolveCategory (db : Db) (slug : String) : Option Category :=
  db.categories.find? (fun c => c.slug == slug && c.is_published)

/-- PostCategoriesView.get_queryset given the resolved category:
`filter(category=self.category, is_published=True, pub_date__lte=now)`. -/
def categoryQueryset (db : Db) (now : Nat) (cat : Category) : List Post :=
  (orderedPosts db.posts).filter
    (fun p => p.category == some cat.id && p.is_published
      && decide (p.pub_date ≤ now))

/-- The category listing as a whole: `none` is the 404 raised when the
slug resolves to no published category. -/
def categoryListing (db : Db) (now : Nat) (slug : String) :
    Option (List Post) :=
  (resolveCategory db slug).map (fun cat => categoryQueryset db now cat)

/-- ProfileDetailView.owner: `get_object_or_404(User, username=username)`. -/
def resolveOwner (db : Db) (username : String) : Option User :=
  db.users.find? (fun u => u.username == username)

/-- ProfileDetailView.get_queryset given the resolved owner: the owner
sees all their posts; any other viewer gets the filter
`author=owner, is_published=True, pub_date__lte=now`. -/
def profileQueryset (db : Db) (now : Nat) (v : Viewer) (owner : User) :
    List Post :=
  if viewerIs v owner.id then
    (orderedPosts db.posts).filter (fun p => p.author == owner.id)
  else
    (orderedPosts db.posts).filter
      (fun p => p.author == owner.id && p.is_published
        && decide (p.pub_date ≤ now))

/-- The outcome of a request handler, as far as the claims observe it:
a 404, a redirect (to the login flow, to a post detail page by id, or to
a profile page by username), or a successfully returned entity/page. -/
inductive Response where
  | notFound : Response
  | serverError : Response
  | redirectLogin : Response
  | redirectPostDetail (id : Nat) : Response
  | redirectProfile (username : String) : Response
  | okPost (p : Post) : Response
deriving DecidableEq, Repr

/-- PostDetailView.get_object: `get_object_or_404(Post, id=id)`, returned
unconditionally to the author; otherwise the guard
`post.is_published and post.pub_date <= now and post.category.is_published`
is evaluated left to right with Python short-circuiting, so the category
attribute is only read when the first two conjuncts hold — and there a
null (or dangling) category reference raises
AttributeError/DoesNotExist, a server error rather than Http404.  When
the guard completes and fails, Http404 is raised. -/
def postDetailGetObject (db : Db) (now : Nat) (v : Viewer) (id : Nat) :
    Response :=
  match db.posts.find? (fun p => p.id == id) with
  | none => .notFound
  | some post =>
    if viewerIs v post.author then .okPost post
    else if post.is_published && decide (post.pub_date ≤ now) then
      match post.category.bind
          (fun cid => db.categories.find? (fun c => c.id == cid)) with
      | none => .serverError
      | some c => if c.is_published then .okPost post else .notFound
    else .notFound

/-- The fields PostForm binds: `exclude = (is_published, author, created_at)`
leaves title, text, pub_date, category and location as the bound model
fields.  The excluded fields have no counterpart here, so no submission
can carry them. -/
structure PostFormData where
  title : String
  text : String
  pub_date : Nat
  category : Option Nat
  location : Option Nat
deriving DecidableEq, Repr

/-- Saving a bound PostForm over an existing instance: only the included
fields are written. -/
def applyPostForm (fd : PostFormData) (p : Post) : Post :=
  { p with
    title := fd.title
    text := fd.text
    pub_date := fd.pub_date
    category := fd.category
    location := fd.location }

/-- Saving a bound PostForm as a new instance (PostCreateView.form_valid
force-sets `author`; `id` and `created_at` come from the ORM, and
`is_published` takes the model default, which is publication enabled). -/
def newPostFromForm (fd : PostFormData) (authorId newId now : Nat) : Post :=
  { id := newId
    author := authorId
    category := fd.category
    location := fd.location
    title := fd.title
    text := fd.text
    pub_date := fd.pub_date
    is_published := true
    created_at := now }

/-- PostCreateView: LoginRequiredMixin first, then bind the form with the
author forced to the session user; success redirects to the session
user's profile. -/
def postCreate (db : Db) (v : Viewer) (fd : PostFormData)
    (newId now : Nat) : Response × Db :=
  match v with
  | none => (.redirectLogin, db)
  | some u =>
    (.redirectProfile u.username,
      { db with posts := db.posts ++ [newPostFromForm fd u.id newId now] })

/-- PostEditView: the overridden `dispatch` resolves the post (404 when
absent) and redirects any non-author to the post detail page BEFORE
`super().dispatch` reaches LoginRequiredMixin; an authenticated author
falls through to UpdateView, which saves the bound form and redirects to
the post detail page. -/
def postEdit (db : Db) (v : Viewer) (id : Nat) (fd : PostFormData) :
    Response × Db :=
  match db.posts.find? (fun p => p.id == id) with
  | none => (.notFound, db)
  | some post =>
    if !viewerIs v post.author then (.redirectPostDetail id, db)
    else if v.isNone then (.redirectLogin, db)
    else
      (.redirectPostDetail id,
        { db with posts :=
            db.posts.map (fun q => if q.id == id then applyPostForm fd q else q) })

/-- PostDeleteView: same dispatch guard as PostEditView; an authenticated
author falls through to DeleteView, which removes the post and redirects
to the session user's profile. -/
def postDelete (db : Db) (v : Viewer) (id : Nat) : Response × Db :=
  match db.posts.find? (fun p => p.id == id) with
  | none => (.notFound, db)
  | some post =>
    if !viewerIs v post.author then (.redirectPostDetail id, db)
    else
      match v with
      | none => (.redirectLogin, db)
      | some u =>
        (.redirectProfile u.username,
          { db with posts := db.posts.filter (fun q => q.id != id) })

/-- ProfileEditView: LoginRequiredMixin, then the target is always the
session user; success redirects to the session user's profile.  The
claims only observe the gating and redirect, so the field update binds
first name, last name, username and email (here: username). -/
def profileEdit (db : Db) (v : Viewer) (newUsername : String) :
    Response × Db :=
  match v with
  | none => (.redirectLogin, db)
  | some u =>
    (.redirectProfile newUsername,
      { db with users :=
          db.users.map (fun w =>
            if w.id == u.id then { w with username := newUsername } else w) })

/-- CommentCreateView: LoginRequiredMixin, then `posting` resolves the
parent post via `get_object_or_404(Post, pk=id, pub_date__lte=now,
is_published=True, category__is_published=True)` — 404 when the post
does not currently satisfy the full visibility predicate, regardless of
who asks.  On success the comment's author and post are force-set and
the response redirects to the post detail page. -/
def commentCreate (db : Db) (v : Viewer) (now id : Nat) (text : String)
    (newId : Nat) : Response × Db :=
  match v with
  | none => (.redirectLogin, db)
  | some u =>
    match db.posts.find? (fun p => p.id == id && decide (p.pub_date ≤ now)
        && p.is_published && catPublished db.categories p) with
    | none => (.notFound, db)
    | some post =>
      (.redirectPostDetail post.id,
        { db with comments :=
            db.comments ++ [{ id := newId, post := post.id, author := u.id,
                              text := text }] })

/-- CommentUpdateView: `pk_url_kwarg = comment` — the comment is resolved
by its own id only; the post id from the URL is used solely as redirect
target.  The dispatch guard redirects any non-author to the detail page
of the URL's post id; an authenticated author saves the bound
CommentForm (text only) and is redirected to the same target. -/
def commentEdit (db : Db) (v : Viewer) (id cid : Nat) (newText : String) :
    Response × Db :=
  match db.comments.find? (fun c => c.id == cid) with
  | none => (.notFound, db)
  | some c =>
    if !viewerIs v c.author then (.redirectPostDetail id, db)
    else if v.isNone then (.redirectLogin, db)
    else
      (.redirectPostDetail id,
        { db with comments :=
            db.comments.map (fun d =>
              if d.id == cid then { d with text := newText } else d) })

/-- CommentDeleteView: same resolution and guard as CommentUpdateView;
an authenticated author deletes the comment and is redirected to the
detail page of the URL's post id. -/
def commentDelete (db : Db) (v : Viewer) (id cid : Nat) : Response × Db :=
  match db.comments.find? (fun c => c.id == cid) with
  | none => (.notFound, db)
  | some c =>
    if !viewerIs v c.author then (.redirectPostDetail id, db)
    else if v.isNone then (.redirectLogin, db)
    else
      (.redirectPostDetail id,
        { db with comments := db.comments.filter (fun d => d.id != cid) })

/-- Referential sanity used by the iff-style claims: entity keys are
unique (the ORM's primary keys and the unique slug/username columns). -/
def wellFormed (db : Db) : Prop :=
  (db.posts.map Post.id).Nodup
  ∧ (db.comments.map Comment.id).Nodup
  ∧ (db.categories.map Category.id).Nodup
  ∧ (db.categories.map Category.slug).Nodup
  ∧ (db.users.map User.username).Nodup

instance (db : Db) : Decidable (wellFormed db) := by
  unfold wellFormed; infer_instance

/-! ### Shared lemmas -/

lemma find?_eq_some_of_unique {α : Type} (pred : α → Bool) {l : List α}
    {a : α} (ha : a ∈ l) (hpa : pred a = true)
    (huniq : ∀ b ∈ l, pred b = true → b = a) : l.find? pred = some a := by
  induction l with
  | nil => cases ha
  | cons b t ih =>
    by_cases hb : pred b = true
    · have hba : b = a := huniq b (List.mem_cons_self b t) hb
      subst hba
      exact List.find?_cons_of_pos t hb
    · have ha' : a ∈ t := by
        rcases List.mem_cons.mp ha with h | h
        · exact absurd (h ▸ hpa) hb
        · exact h
      rw [List.find?_cons_of_neg t hb]
      exact ih ha' (fun c hc hpc => huniq c (List.mem_cons_of_mem _ hc) hpc)

lemma mem_orderedFilter {pred : Post → Bool} {l : List Post} {p : Post} :
    p ∈ (orderedPosts l).filter pred ↔ p ∈ l ∧ pred p = true := by
  simp [orderedPosts, List.mem_filter]

lemma sorted_orderedFilter (pred : Post → Bool) (l : List Post) :
    List.Sorted pubGE ((orderedPosts l).filter pred) :=
  (List.sorted_insertionSort pubGE l).filter pred

/-- With unique category ids, the join `category__is_published` evaluated
at a post whose category is `cat` is exactly `cat.is_published`. -/
lemma catPublished_eq {db : Db} {p : Post} {cat : Category}
    (hwf : wellFormed db) (hcat : cat ∈ db.categories)
    (hpc : p.category = some cat.id) :
    catPublished db.categories p = cat.is_published := by
  have hfind : db.categories.find? (fun c => c.id == cat.id) = some cat := by
    refine find?_eq_some_of_unique _ hcat (by simp) (fun b hb hpb => ?_)
    exact List.inj_on_of_nodup_map hwf.2.2.1 hb hcat (by simpa using hpb)
  simp [catPublished, hpc, hfind]

/-! ### C1 -/

/-- Concrete scene refuting C1: a published, past-dated post whose
category is unpublished, viewed on its author's profile by another
user. -/
def c1cat : Category := { id := 1, slug := "cats", is_published := false }

def c1post : Post :=
  { id := 1, author := 1, category := some 1, location := none,
    title := "t", text := "x", pub_date := 0, is_published := true,
    created_at := 0 }

def c1owner : User := { id := 1, username := "alice" }

def c1viewer : User := { id := 2, username := "bob" }

def c1db : Db :=
  { posts := [c1post], comments := [], categories := [c1cat],
    users := [c1owner, c1viewer] }

/-- C1 (counterexample): the profile listing shown to a non-owner does
NOT apply the category part of the visibility predicate: a post with an
unpublished category appears to another viewer, contradicting the claim
that such a post never appears to v. -/
theorem C1_counterexample :
    c1post ∈ profileQueryset c1db 0 (some c1viewer) c1owner
      ∧ catPublished c1db.categories c1post = false
      ∧ c1viewer.id ≠ c1owner.id := by
  decide

/-- C1 (amended): for a viewer who is not the profile owner, the profile
listing contains exactly the owner's posts with `is_published` true and
`pub_date ≤ now`; the category publication state is not consulted. -/
theorem C1_profile_nonowner (db : Db) (now : Nat) (v : Viewer)
    (owner : User) (p : Post) (hv : viewerIs v owner.id = false) :
    p ∈ profileQueryset db now v owner
      ↔ p ∈ db.posts ∧ p.author = owner.id ∧ p.is_published = true
          ∧ p.pub_date ≤ now := by
  rw [profileQueryset, if_neg (by simp [hv]), mem_orderedFilter]
  simp [and_assoc]

theorem C1_profile_nonowner_witness :
    viewerIs (some c1viewer) c1owner.id = false
      ∧ (c1post ∈ profileQueryset c1db 0 (some c1viewer) c1owner
          ↔ c1post ∈ c1db.posts ∧ c1post.author = c1owner.id
              ∧ c1post.is_published = true ∧ c1post.pub_date ≤ 0) :=
  ⟨by decide, C1_profile_nonowner c1db 0 (some c1viewer) c1owner c1post
    (by decide)⟩

/-! ### C2 -/

/-- C2: a post appears in the index listing, and in the category listing
of its own category, exactly when it is published, its category is
published and its `pub_date` is not in the future.  (When the category
is unpublished its listing itself 404s, so the post appears in no
category listing.) -/
theorem C2_index_and_category (db : Db) (now : Nat) (p : Post)
    (cat : Category) (hwf : wellFormed db) (hmem : p ∈ db.posts)
    (hcat : cat ∈ db.categories) (hpc : p.category = some cat.id) :
    (p ∈ postListQueryset db now
        ↔ p.is_published = true ∧ cat.is_published = true
            ∧ p.pub_date ≤ now)
      ∧ ((∃ l, categoryListing db now cat.slug = some l ∧ p ∈ l)
        ↔ p.is_published = true ∧ cat.is_published = true
            ∧ p.pub_date ≤ now) := by
  have hcp := catPublished_eq hwf hcat hpc
  constructor
  · rw [postListQueryset, mem_orderedFilter, hcp]
    simp only [Bool.and_eq_true, decide_eq_true_eq]
    constructor
    · rintro ⟨_, ⟨h1, h2⟩, h3⟩
      exact ⟨h2, h1, h3⟩
    · rintro ⟨h2, h1, h3⟩
      exact ⟨hmem, ⟨h1, h2⟩, h3⟩
  · cases hpub : cat.is_published with
    | false =>
      have hres : resolveCategory db cat.slug = none := by
        rw [resolveCategory, List.find?_eq_none]
        intro c hc
        by_cases hsl : c.slug = cat.slug
        · have : c = cat :=
            List.inj_on_of_nodup_map hwf.2.2.2.1 hc hcat (by simp [hsl])
          simp [this, hpub]
        · simp [hsl]
      simp [categoryListing, hres]
    | true =>
      have hres : resolveCategory db cat.slug = some cat := by
        refine find?_eq_some_of_unique _ hcat (by simp [hpub])
          (fun b hb hpb => ?_)
        have hsl : b.slug = cat.slug := by
          have := (Bool.and_eq_true _ _).mp hpb
          simpa using this.1
        exact List.inj_on_of_nodup_map hwf.2.2.2.1 hb hcat (by simp [hsl])
      rw [categoryListing, hres]
      constructor
      · rintro ⟨l, hl, hpl⟩
        obtain rfl : categoryQueryset db now cat = l := by
          simpa using hl
        rw [categoryQueryset, mem_orderedFilter] at hpl
        simp only [Bool.and_eq_true, beq_iff_eq, decide_eq_true_eq] at hpl
        exact ⟨hpl.2.1.2, rfl, hpl.2.2⟩
      · rintro ⟨h1, _, h3⟩
        refine ⟨categoryQueryset db now cat, rfl, ?_⟩
        rw [categoryQueryset, mem_orderedFilter]
        simp [hmem, hpc, h1, h3]

/-- Concrete scene for the C2 witness: one published category, one
visible post. -/
def c2cat : Category := { id := 7, slug := "news", is_published := true }

def c2post : Post :=
  { id := 3, author := 1, category := some 7, location := none,
    title := "n", text := "y", pub_date := 5, is_published := true,
    created_at := 0 }

def c2db : Db :=
  { posts := [c2post], comments := [], categories := [c2cat],
    users := [c1owner] }

theorem C2_index_and_category_witness :
    wellFormed c2db ∧ c2post ∈ c2db.posts ∧ c2cat ∈ c2db.categories
      ∧ c2post.category = some c2cat.id
      ∧ ((c2post ∈ postListQueryset c2db 10
          ↔ c2post.is_published = true ∧ c2cat.is_published = true
              ∧ c2post.pub_date ≤ 10)
        ∧ ((∃ l, categoryListing c2db 10 c2cat.slug = some l ∧ c2post ∈ l)
          ↔ c2post.is_published = true ∧ c2cat.is_published = true
              ∧ c2post.pub_date ≤ 10)) :=
  ⟨by decide, by decide, by decide, by decide,
    C2_index_and_category c2db 10 c2post c2cat (by decide) (by decide)
      (by decide) (by decide)⟩

/-! ### C3 -/

/-- Concrete scene refuting C3: a published, past-dated post with no
category, requested by a viewer who is not its author.  The guard
reaches the null category attribute and the request dies with a server
error, not the claimed not-found. -/
def c3viewer : User := { id := 8, username := "dave" }

def c3post : Post :=
  { id := 12, author := 1, category := none, location := none,
    title := "nc", text := "z", pub_date := 0, is_published := true,
    created_at := 0 }

def c3db : Db :=
  { posts := [c3post], comments := [], categories := [],
    users := [c3viewer] }

/-- C3 (counterexample): on a published, past-dated, category-less post,
a non-author request neither returns the post nor fails with not-found:
`post.category.is_published` at views.py:50 raises AttributeError, a
server error. -/
theorem C3_counterexample :
    viewerIs (some c3viewer) c3post.author = false
      ∧ c3post.is_published = true ∧ c3post.pub_date ≤ 0
      ∧ c3post.category = none
      ∧ postDetailGetObject c3db 0 (some c3viewer) c3post.id
          = Response.serverError
      ∧ Response.serverError ≠ Response.notFound
      ∧ Response.serverError ≠ Response.okPost c3post := by
  decide

/-- C3 (amended): when `p.category` resolves to a category `cat`, the
detail handler returns `p` exactly when the viewer is its author or
`p.is_published ∧ p.pub_date ≤ now ∧ cat.is_published`, answering
not-found otherwise.  When `p` has no category, the author still gets
`p` unconditionally, but any other viewer gets a server error if
`p.is_published ∧ p.pub_date ≤ now` (the short-circuited guard touches
the null category attribute) and not-found otherwise. -/
theorem C3_post_detail (db : Db) (now : Nat) (v : Viewer) (p : Post)
    (hwf : wellFormed db) (hmem : p ∈ db.posts) :
    (∀ cat ∈ db.categories, p.category = some cat.id →
        postDetailGetObject db now v p.id =
          (if viewerIs v p.author = true
              ∨ (p.is_published = true ∧ p.pub_date ≤ now
                  ∧ cat.is_published = true)
            then Response.okPost p else Response.notFound))
      ∧ (p.category = none →
          postDetailGetObject db now v p.id =
            (if viewerIs v p.author = true then Response.okPost p
              else if p.is_published = true ∧ p.pub_date ≤ now
                then Response.serverError
              else Response.notFound)) := by
  have hfind : db.posts.find? (fun q => q.id == p.id) = some p := by
    refine find?_eq_some_of_unique _ hmem (by simp) (fun b hb hpb => ?_)
    exact List.inj_on_of_nodup_map hwf.1 hb hmem (by simpa using hpb)
  constructor
  · intro cat hcat hpc
    have hcfind : db.categories.find? (fun c => c.id == cat.id) = some cat := by
      refine find?_eq_some_of_unique _ hcat (by simp) (fun b hb hpb => ?_)
      exact List.inj_on_of_nodup_map hwf.2.2.1 hb hcat (by simpa using hpb)
    cases hv : viewerIs v p.author with
    | true => simp [postDetailGetObject, hfind, hv]
    | false =>
      cases hp : p.is_published with
      | false => simp [postDetailGetObject, hfind, hv, hp]
      | true =>
        by_cases hd : p.pub_date ≤ now
        · cases hc : cat.is_published with
          | true =>
            simp [postDetailGetObject, hfind, hv, hp, hd, hpc, hcfind, hc]
          | false =>
            simp [postDetailGetObject, hfind, hv, hp, hd, hpc, hcfind, hc]
        · simp [postDetailGetObject, hfind, hv, hp, hd]
  · intro hpc
    cases hv : viewerIs v p.author with
    | true => simp [postDetailGetObject, hfind, hv]
    | false =>
      cases hp : p.is_published with
      | false => simp [postDetailGetObject, hfind, hv, hp]
      | true =>
        by_cases hd : p.pub_date ≤ now
        · simp [postDetailGetObject, hfind, hv, hp, hd, hpc]
        · simp [postDetailGetObject, hfind, hv, hp, hd]

theorem C3_post_detail_witness :
    postDetailGetObject c2db 10 none c2post.id =
        (if viewerIs none c2post.author = true
            ∨ (c2post.is_published = true ∧ c2post.pub_date ≤ 10
                ∧ c2cat.is_published = true)
          then Response.okPost c2post else Response.notFound)
      ∧ postDetailGetObject c3db 0 (some c3viewer) c3post.id =
          (if viewerIs (some c3viewer) c3post.author = true
            then Response.okPost c3post
            else if c3post.is_published = true ∧ c3post.pub_date ≤ 0
              then Response.serverError
            else Response.notFound) :=
  ⟨(C3_post_detail c2db 10 none c2post (by decide) (by decide)).1 c2cat
      (by decide) (by decide),
    (C3_post_detail c3db 0 (some c3viewer) c3post (by decide) (by decide)).2
      (by decide)⟩

/-! ### C4 -/

/-- C4: an authenticated non-author's edit or delete request, for a post
or a comment, answers with a redirect to the post detail page and leaves
the database exactly as it was. -/
theorem C4_nonauthor_no_mutation (db : Db) (u : User) (p : Post)
    (c : Comment) (idc : Nat) (fd : PostFormData) (s : String)
    (hp : db.posts.find? (fun q => q.id == p.id) = some p)
    (hpa : p.author ≠ u.id)
    (hc : db.comments.find? (fun d => d.id == c.id) = some c)
    (hca : c.author ≠ u.id) :
    postEdit db (some u) p.id fd = (.redirectPostDetail p.id, db)
      ∧ postDelete db (some u) p.id = (.redirectPostDetail p.id, db)
      ∧ commentEdit db (some u) idc c.id s = (.redirectPostDetail idc, db)
      ∧ commentDelete db (some u) idc c.id = (.redirectPostDetail idc, db) := by
  have hvp : viewerIs (some u) p.author = false := by
    have h : ¬ (u.id = p.author) := fun h => hpa h.symm
    simpa [viewerIs] using h
  have hvc : viewerIs (some u) c.author = false := by
    have h : ¬ (u.id = c.author) := fun h => hca h.symm
    simpa [viewerIs] using h
  refine ⟨?_, ?_, ?_, ?_⟩
  · simp [postEdit, hp, hvp]
  · simp [postDelete, hp, hvp]
  · simp [commentEdit, hc, hvc]
  · simp [commentDelete, hc, hvc]

/-- Concrete scene for the C4 witness: a post and a comment both owned
by user 1, requested by user 2. -/
def c4post : Post :=
  { id := 4, author := 1, category := none, location := none,
    title := "a", text := "b", pub_date := 1, is_published := true,
    created_at := 0 }

def c4comment : Comment := { id := 9, post := 4, author := 1, text := "hi" }

def c4db : Db :=
  { posts := [c4post], comments := [c4comment], categories := [],
    users := [c1owner, c1viewer] }

def c4fd : PostFormData :=
  { title := "a2", text := "b2", pub_date := 2, category := none,
    location := none }

theorem C4_nonauthor_no_mutation_witness :
    postEdit c4db (some c1viewer) c4post.id c4fd
        = (.redirectPostDetail c4post.id, c4db)
      ∧ postDelete c4db (some c1viewer) c4post.id
        = (.redirectPostDetail c4post.id, c4db)
      ∧ commentEdit c4db (some c1viewer) 4 c4comment.id "zz"
        = (.redirectPostDetail 4, c4db)
      ∧ commentDelete c4db (some c1viewer) 4 c4comment.id
        = (.redirectPostDetail 4, c4db) :=
  C4_nonauthor_no_mutation c4db c1viewer c4post c4comment 4 c4fd "zz"
    (by decide) (by decide) (by decide) (by decide)

/-! ### C5 -/

/-- C5 (counterexample): an unauthenticated request to edit an existing
post is NOT redirected to the login flow: the overridden dispatch runs
the ownership comparison first (an anonymous viewer never equals the
author) and redirects to the post detail page. -/
theorem C5_counterexample :
    postEdit c4db none c4post.id c4fd
        = (.redirectPostDetail c4post.id, c4db)
      ∧ (Response.redirectPostDetail c4post.id) ≠ Response.redirectLogin := by
  decide

/-- C5 (amended): unauthenticated requests to post create, comment
create and profile edit are redirected to the login flow before the
handler body runs; but for post/comment edit and delete the overridden
dispatch resolves the target first, so on an existing target the
anonymous viewer fails the ownership comparison and is redirected to the
post detail page instead of the login flow (and nothing is mutated). -/
theorem C5_unauthenticated (db : Db) (fd : PostFormData)
    (s : String) (now id cid nid : Nat) (p : Post) (c : Comment) :
    postCreate db none fd nid now = (.redirectLogin, db)
      ∧ commentCreate db none now id s nid = (.redirectLogin, db)
      ∧ profileEdit db none s = (.redirectLogin, db)
      ∧ (db.posts.find? (fun q => q.id == id) = some p →
          postEdit db none id fd = (.redirectPostDetail id, db)
            ∧ postDelete db none id = (.redirectPostDetail id, db))
      ∧ (db.comments.find? (fun d => d.id == cid) = some c →
          commentEdit db none id cid s = (.redirectPostDetail id, db)
            ∧ commentDelete db none id cid = (.redirectPostDetail id, db)) := by
  refine ⟨rfl, rfl, rfl, fun hp => ⟨?_, ?_⟩, fun hc => ⟨?_, ?_⟩⟩
  · simp [postEdit, hp, viewerIs]
  · simp [postDelete, hp, viewerIs]
  · simp [commentEdit, hc, viewerIs]
  · simp [commentDelete, hc, viewerIs]

theorem C5_unauthenticated_witness :
    postCreate c4db none c4fd 7 0 = (.redirectLogin, c4db)
      ∧ postEdit c4db none 4 c4fd = (.redirectPostDetail 4, c4db)
      ∧ postDelete c4db none 4 = (.redirectPostDetail 4, c4db)
      ∧ commentEdit c4db none 4 9 "w" = (.redirectPostDetail 4, c4db)
      ∧ commentDelete c4db none 4 9 = (.redirectPostDetail 4, c4db) :=
  ⟨(C5_unauthenticated c4db c4fd "w" 0 4 9 7 c4post c4comment).1,
    ((C5_unauthenticated c4db c4fd "w" 0 4 9 7 c4post c4comment).2.2.2.1
      (by decide)).1,
    ((C5_unauthenticated c4db c4fd "w" 0 4 9 7 c4post c4comment).2.2.2.1
      (by decide)).2,
    ((C5_unauthenticated c4db c4fd "w" 0 4 9 7 c4post c4comment).2.2.2.2
      (by decide)).1,
    ((C5_unauthenticated c4db c4fd "w" 0 4 9 7 c4post c4comment).2.2.2.2
      (by decide)).2⟩

/-! ### C6 -/

/-- C6: submitting a comment to a post that currently fails the full
visibility predicate answers not-found for every authenticated user —
the parent-post lookup itself carries the predicate, with no author
bypass — and the database is unchanged. -/
theorem C6_comment_on_invisible_post (db : Db) (u : User) (now : Nat)
    (p : Post) (s : String) (nid : Nat)
    (hwf : wellFormed db) (hmem : p ∈ db.posts)
    (hfail : ¬(p.is_published = true ∧ p.pub_date ≤ now
        ∧ catPublished db.categories p = true)) :
    commentCreate db (some u) now p.id s nid = (.notFound, db) := by
  have hnone : db.posts.find?
      (fun q => q.id == p.id && decide (q.pub_date ≤ now)
        && q.is_published && catPublished db.categories q) = none := by
    rw [List.find?_eq_none]
    intro q hq hpred
    simp only [Bool.and_eq_true, beq_iff_eq, decide_eq_true_eq] at hpred
    have hqp : q = p := List.inj_on_of_nodup_map hwf.1 hq hmem hpred.1.1.1
    subst hqp
    exact hfail ⟨hpred.1.2, hpred.1.1.2, hpred.2⟩
  simp [commentCreate, hnone]

/-- Concrete scene for the C6 witness: an unpublished post, its own
author submitting the comment. -/
def c6cat : Category := { id := 2, slug := "misc", is_published := true }

def c6author : User := { id := 5, username := "carol" }

def c6post : Post :=
  { id := 6, author := 5, category := some 2, location := none,
    title := "d", text := "e", pub_date := 0, is_published := false,
    created_at := 0 }

def c6db : Db :=
  { posts := [c6post], comments := [], categories := [c6cat],
    users := [c6author] }

theorem C6_comment_on_invisible_post_witness :
    wellFormed c6db ∧ c6post ∈ c6db.posts
      ∧ ¬(c6post.is_published = true ∧ c6post.pub_date ≤ 3
          ∧ catPublished c6db.categories c6post = true)
      ∧ commentCreate c6db (some c6author) 3 c6post.id "hey" 1
          = (.notFound, c6db) :=
  ⟨by decide, by decide, by decide,
    C6_comment_on_invisible_post c6db c6author 3 c6post "hey" 1
      (by decide) (by decide) (by decide)⟩

/-! ### C7 -/

/-- C7: every successful post creation stores the session user as the
author — the form data carries no author field at all — and redirects to
that user's profile page. -/
theorem C7_create_forces_author (db : Db) (u : User) (fd : PostFormData)
    (nid now : Nat) :
    (postCreate db (some u) fd nid now).1 = .redirectProfile u.username
      ∧ (postCreate db (some u) fd nid now).2.posts
          = db.posts ++ [newPostFromForm fd u.id nid now]
      ∧ (newPostFromForm fd u.id nid now).author = u.id :=
  ⟨rfl, rfl, rfl⟩

/-! ### C8 -/

/-- C8: each listing queryset (index, category, profile) is sorted by
`pub_date` descending, and every page delivers at most 10 posts. -/
theorem C8_ordering_and_page_size (db : Db) (now : Nat) (v : Viewer)
    (owner : User) (cat : Category) (k : Nat) :
    List.Sorted pubGE (postListQueryset db now)
      ∧ List.Sorted pubGE (categoryQueryset db now cat)
      ∧ List.Sorted pubGE (profileQueryset db now v owner)
      ∧ (getPage k (postListQueryset db now)).length ≤ 10
      ∧ (getPage k (categoryQueryset db now cat)).length ≤ 10
      ∧ (getPage k (profileQueryset db now v owner)).length ≤ 10 := by
  have hsortp : List.Sorted pubGE (profileQueryset db now v owner) := by
    rw [profileQueryset]
    split
    · exact sorted_orderedFilter _ _
    · exact sorted_orderedFilter _ _
  have hlen : ∀ l : List Post, (getPage k l).length ≤ 10 := fun l => by
    rw [getPage]
    exact List.length_take_le _ _
  exact ⟨sorted_orderedFilter _ _, sorted_orderedFilter _ _, hsortp,
    hlen _, hlen _, hlen _⟩

/-! ### C9 -/

/-- C9: comment edit/delete resolve the comment by its own id only; the
post id from the URL is consulted for nothing but the redirect target,
so the action succeeds on the comment and redirects to the detail page
of whatever post id the URL carried, even one that is not the comment's
parent. -/
theorem C9_comment_resolved_by_own_id (db : Db) (u : User) (c : Comment)
    (id : Nat) (s : String)
    (hfind : db.comments.find? (fun d => d.id == c.id) = some c)
    (hauth : c.author = u.id) :
    commentEdit db (some u) id c.id s
        = (.redirectPostDetail id,
            { db with comments := db.comments.map (fun d =>
                if d.id == c.id then { d with text := s } else d) })
      ∧ commentDelete db (some u) id c.id
        = (.redirectPostDetail id,
            { db with comments :=
                db.comments.filter (fun d => d.id != c.id) }) := by
  have hv : viewerIs (some u) c.author = true := by simp [viewerIs, hauth]
  constructor
  · simp [commentEdit, hfind, hv]
  · simp [commentDelete, hfind, hv]

/-- Concrete scene for the C9 witness: the comment belongs to post 6,
while the URL names post 3. -/
def c9comment : Comment := { id := 11, post := 6, author := 5, text := "q" }

def c9db : Db :=
  { posts := [c6post], comments := [c9comment], categories := [c6cat],
    users := [c6author] }

theorem C9_comment_resolved_by_own_id_witness :
    c9comment.post ≠ 3
      ∧ (commentEdit c9db (some c6author) 3 c9comment.id "r"
          = (.redirectPostDetail 3,
              { c9db with comments := c9db.comments.map (fun d =>
                  if d.id == c9comment.id then { d with text := "r" }
                  else d) })
        ∧ commentDelete c9db (some c6author) 3 c9comment.id
          = (.redirectPostDetail 3,
              { c9db with comments :=
                  c9db.comments.filter (fun d => d.id != c9comment.id) })) :=
  ⟨by decide,
    C9_comment_resolved_by_own_id c9db c6author c9comment 3 "r"
      (by decide) (by decide)⟩

/-! ### C10 -/

/-- The fields PostForm cannot touch, compared between the pre-state and
post-state version of a post. -/
def framePreserved (q q' : Post) : Prop :=
  q'.id = q.id ∧ q'.is_published = q.is_published
    ∧ q'.author = q.author ∧ q'.created_at = q.created_at

lemma forall2_refl {R : Post → Post → Prop} (h : ∀ a, R a a) :
    ∀ l : List Post, List.Forall₂ R l l
  | [] => List.Forall₂.nil
  | a :: t => List.Forall₂.cons (h a) (forall2_refl h t)

lemma forall2_map_self {R : Post → Post → Prop} (f : Post → Post)
    (h : ∀ a, R a (f a)) : ∀ l : List Post, List.Forall₂ R l (l.map f)
  | [] => List.Forall₂.nil
  | a :: t => List.Forall₂.cons (h a) (forall2_map_self f h t)

/-- C10: a post edit leaves `id`, `is_published`, `author` and
`created_at` of every stored post exactly as they were — PostForm
excludes them, so no submission reaches them — and a created post takes
its `is_published`, `author` and `created_at` from the model default,
the session user and the clock, never from the form data. -/
theorem C10_excluded_fields_frame (db : Db) (v : Viewer) (id : Nat)
    (fd : PostFormData) (u : User) (nid now : Nat) :
    List.Forall₂ framePreserved db.posts ((postEdit db v id fd).2.posts)
      ∧ (newPostFromForm fd u.id nid now).is_published = true
      ∧ (newPostFromForm fd u.id nid now).author = u.id
      ∧ (newPostFromForm fd u.id nid now).created_at = now := by
  have hrefl : ∀ a : Post, framePreserved a a :=
    fun a => ⟨rfl, rfl, rfl, rfl⟩
  refine ⟨?_, rfl, rfl, rfl⟩
  unfold postEdit
  cases hf : db.posts.find? (fun q => q.id == id) with
  | none => exact forall2_refl hrefl _
  | some post =>
    dsimp only
    split
    · exact forall2_refl hrefl _
    · split
      · exact forall2_refl hrefl _
      · refine forall2_map_self _ (fun a => ?_) _
        by_cases h : (a.id == id) = true
        · simp [h, applyPostForm, framePreserved]
        · simp [h, framePreserved]

end Blogicum
